import Mathlib

/-!
Shallow embedding of the obswaveform audio-spectrum source
(`src/source.cpp`), together with proofs of the specification claims
about it.  Machine integers are modelled as `Nat`/`Int` (sizes and
counters never approach 2^64 in this code), C `float` arithmetic as
exact real/rational arithmetic, and the OBS `circlebuf` byte FIFO as a
`List Nat` of bytes.
-/

namespace ObsWaveform

/-! ## Circular capture buffer (`circlebuf`, used by `WAVSource::capture_audio`)

A `circlebuf` is a byte FIFO: `push_back` appends bytes at the end,
`push_back_zero` appends zero bytes, `pop_front` discards bytes from
the front.  We model the byte store as a `List Nat`. -/

def circlebufPushBack (buf data : List Nat) : List Nat :=
  buf ++ data

def circlebufPushBackZero (buf : List Nat) (n : Nat) : List Nat :=
  buf ++ List.replicate n 0

def circlebufPopFront (buf : List Nat) (n : Nat) : List Nat :=
  buf.drop n

/-- The bytes appended to one channel's FIFO by `capture_audio` for a
delivery of `frames` frames: `frames * sizeof(float)` zero bytes when
muted, else the `frames * 4` sample bytes `data`. -/
def pushedBytes (frames : Nat) (data : List Nat) (muted : Bool) : List Nat :=
  if muted then List.replicate (frames * 4) 0 else data

/-- Per-channel body of `WAVSource::capture_audio`
(`src/source.cpp:1000-1012`): append `sz = frames * sizeof(float)`
bytes (zeroes when muted), then if the total size exceeds
`m_fft_size * sizeof(float) * 2` pop the excess from the front. -/
def capturePushChannel (fftSize : Nat) (buf : List Nat) (frames : Nat)
    (data : List Nat) (muted : Bool) : List Nat :=
  let sz := frames * 4
  let b1 := if muted then circlebufPushBackZero buf sz
            else circlebufPushBack buf data
  let total := b1.length
  let mx := fftSize * 4 * 2
  if total > mx then circlebufPopFront b1 (total - mx) else b1

/-! ## Whole-instance state touched by the capture callback -/

/-- The fields of a `WAVSource` instance that the audio capture
callback can read or write.  `audioSource` models the weak source
handle `m_audio_source` (`none` = null). -/
structure CaptureState where
  audioSource : Option Unit
  captureChannels : Nat
  fftSize : Nat
  capturebufs : Fin 2 → List Nat

/-- `WAVSource::capture_audio` (`src/source.cpp:992-1013`), after the
lock has been acquired: if the weak source handle is null, return with
no state change; otherwise push the frame bytes onto each captured
channel's FIFO and trim it. -/
def captureAudio (st : CaptureState) (frames : Nat) (data : Fin 2 → List Nat)
    (muted : Bool) : CaptureState :=
  if st.audioSource = none then st
  else
    { st with
      capturebufs := fun i =>
        if i.val < st.captureChannels then
          capturePushChannel st.fftSize (st.capturebufs i) frames (data i) muted
        else st.capturebufs i }

/-! ## Settings normalization (`WAVSource::get_settings`) -/

/-- `m_fft_size &= -16` (`src/source.cpp:329`): clear the four low
bits, i.e. round down to the nearest multiple of 16. -/
def alignFFT (n : Nat) : Nat :=
  n / 16 * 16

/-- FFT size normalization in `WAVSource::get_settings`
(`src/source.cpp:326-329`): sizes below 128 become 128, other sizes
not a multiple of 16 are aligned down to a multiple of 16. -/
def normalizeFFTSize (n : Nat) : Nat :=
  if n < 128 then 128
  else if n % 16 ≠ 0 then alignFFT n
  else n

/-- Auto FFT sizing in `WAVSource::update` (`src/source.cpp:525-531`):
`m_fft_size = size_t(samples_per_sec / m_fps) & -16`, then raised to
128 if below.  `fps` is the host frame rate as an exact rational. -/
def autoFFTSize (samplesPerSec : Nat) (fps : ℚ) : Nat :=
  let n := alignFFT (⌊(samplesPerSec : ℚ) / fps⌋.toNat)
  if n < 128 then 128 else n

/-- Cutoff normalization in `WAVSource::get_settings`
(`src/source.cpp:331-335`): a pair with `high - low < 1` is replaced
by low = 120, high = 17500.  Returns `(low, high)`. -/
def normalizeCutoffs (low high : ℤ) : ℤ × ℤ :=
  if high - low < 1 then (120, 17500) else (low, high)

/-- Floor/ceiling normalization in `WAVSource::get_settings`
(`src/source.cpp:337-341`): a pair with `ceiling - floor < 1` is
replaced by ceiling = 0, floor = -120.  Returns `(floor, ceiling)`. -/
def normalizeRange (floorDb ceilingDb : ℤ) : ℤ × ℤ :=
  if ceilingDb - floorDb < 1 then (-120, 0) else (floorDb, ceilingDb)

/-! ## Bar count (`WAVSource::update`, `src/source.cpp:606-615`) -/

/-- `m_num_bars` computation: `m_num_bars = width / (barWidth + barGap)`,
then one more bar if the remaining width still fits a full bar. -/
def numBars (width barWidth barGap : Nat) : Nat :=
  let barStride := barWidth + barGap
  let n := width / barStride
  if (width : ℤ) - (n : ℤ) * (barStride : ℤ) ≥ (barWidth : ℤ) then n + 1 else n

/-! ## Interpolation index table (`WAVSource::init_interp`)

Float arithmetic is modelled exactly over `ℝ`. -/

/-- `std::clamp(v, lo, hi)`: `v < lo ? lo : (hi < v ? hi : v)`. -/
noncomputable def clampF (v lo hi : ℝ) : ℝ :=
  if v < lo then lo else if hi < v then hi else v

/-- Modelled from the spec: `lerp` is declared in `math_funcs.hpp`,
which is not part of this snapshot; §4.4 specifies plain linear
interpolation between the endpoint bins. -/
noncomputable def lerp (a b t : ℝ) : ℝ :=
  a + t * (b - a)

/-- Modelled from the spec: `log_interp` is declared in
`math_funcs.hpp`, which is not part of this snapshot; §4.4 specifies
logarithmic interpolation between the endpoint bins, i.e. linear
interpolation of the logarithms. -/
noncomputable def log_interp (a b t : ℝ) : ℝ :=
  Real.exp (lerp (Real.log a) (Real.log b) t)

/-- `(float)maxbin` where `maxbin = (m_fft_size / 2) - 1`
(`src/source.cpp:457`, `Nat` division and truncated subtraction). -/
noncomputable def maxbinF (fftSize : Nat) : ℝ :=
  ((fftSize / 2 - 1 : Nat) : ℝ)

/-- Cutoff-to-bin conversion of `WAVSource::init_interp`
(`src/source.cpp:459-460`):
`std::clamp((float)cutoff * m_fft_size / sr, 1.0f, (float)maxbin)`. -/
noncomputable def binOf (cutoff : ℤ) (fftSize : Nat) (sr : ℝ) : ℝ :=
  clampF ((cutoff : ℝ) * (fftSize : ℝ) / sr) 1 (maxbinF fftSize)

/-- `WAVSource::init_interp` (`src/source.cpp:455-473`): the table of
`sz` interpolated bin indices between `lowbin` and `highbin`,
logarithmically or linearly spaced. -/
noncomputable def init_interp (logScale : Bool) (cutoffLow cutoffHigh : ℤ)
    (fftSize : Nat) (sr : ℝ) (sz : Nat) : List ℝ :=
  let lowbin := binOf cutoffLow fftSize sr
  let highbin := binOf cutoffHigh fftSize sr
  (List.range sz).map fun (i : Nat) =>
    if logScale then log_interp lowbin highbin ((i : ℝ) / ((sz - 1 : Nat) : ℝ))
    else lerp lowbin highbin ((i : ℝ) / ((sz - 1 : Nat) : ℝ))

/-! ## Decibel floor and spectrum initialization -/

/-- `WAVSource::DB_MIN` (`src/source.cpp:33`):
`20.0f * std::log10(std::numeric_limits<float>::min())`, where
`float` min is the smallest positive normal float, `2^-126`. -/
noncomputable def DB_MIN : ℝ :=
  20 * Real.logb 10 ((2 : ℝ) ^ (-126 : ℤ))

/-- One output channel's decibel array right after `WAVSource::update`
(`src/source.cpp:537-547`): `m_fft_size / 2` entries, all `DB_MIN`. -/
noncomputable def initDecibels (fftSize : Nat) : List ℝ :=
  List.replicate (fftSize / 2) DB_MIN

/-- All output channels' decibel arrays right after
`WAVSource::update` (`src/source.cpp:534-547`). -/
noncomputable def initSpectrum (outputChannels fftSize : Nat) : List (List ℝ) :=
  List.replicate outputChannels (initDecibels fftSize)

/-! ## Bar averaging loops (`WAVSource::render_bars`) -/

/-- Point-mode averaging loop of `WAVSource::render_bars`
(`src/source.cpp:831-844`): a do/while over integer spectrum positions
starting at `pos`, adding `dec pos` and advancing by one while the
advanced position is below `stop`.  Returns the accumulated sum and
the iteration count. -/
def barSumCountPoint {α : Type} [Add α] (dec : ℤ → α) (pos stop : ℤ) : α × Nat :=
  if pos + 1 < stop then
    let rest := barSumCountPoint dec (pos + 1) stop
    (dec pos + rest.1, rest.2 + 1)
  else (dec pos, 1)
termination_by (stop - (pos + 1)).toNat
decreasing_by omega

/-- Lanczos-mode averaging loop of `WAVSource::render_bars`
(`src/source.cpp:812-827`): a do/while over fractional spectrum
positions starting at `pos`, adding `f pos` and advancing by `1.0`
while the advanced position is below `stop`.  The float positions are
modelled exactly as rationals; the Lanczos-sampled value `f` is kept
abstract (`lanczos_interp` is declared in `math_funcs.hpp`, not part
of this snapshot). -/
def barSumCountLanczos {α : Type} [Add α] (f : ℚ → α) (pos stop : ℚ) : α × Nat :=
  if pos + 1 < stop then
    let rest := barSumCountLanczos f (pos + 1) stop
    (f pos + rest.1, rest.2 + 1)
  else (f pos, 1)
termination_by (⌈stop - pos⌉).toNat
decreasing_by
  rename_i h
  have h1 : stop - (pos + 1) = stop - pos - 1 := by ring
  have h2 : ⌈stop - pos - 1⌉ = ⌈stop - pos⌉ - 1 := Int.ceil_sub_one _
  have h3 : (1 : ℚ) < stop - pos := by linarith
  have h4 : (1 : ℤ) < ⌈stop - pos⌉ := by
    have h5 := Int.le_ceil (stop - pos)
    exact_mod_cast lt_of_lt_of_le h3 h5
  simp only [h1, h2]
  omega

/-! ## Missing-source retry counter (`WAVSource::recapture_audio`) -/

/-- Failure branch of `WAVSource::recapture_audio`
(`src/source.cpp:403-407`): when the named source is not found (and
the name is not "none"), log a warning iff the retry counter is 0,
then increment it (`if(m_retries++ == 0) blog(...)`).  Returns the new
counter and whether a warning was logged. -/
def recaptureFail (retries : Nat) : Nat × Bool :=
  (retries + 1, decide (retries = 0))

/-- `n` consecutive failed recapture attempts starting from retry
counter `r`:  final counter and number of warnings logged.
`WAVSource::update` resets the counter to 0 (`src/source.cpp:588`), so
a contiguous failure streak starts from `r = 0`. -/
def failStreak (r : Nat) : Nat → Nat × Nat
  | 0 => (r, 0)
  | n + 1 =>
    let step := recaptureFail r
    let rest := failStreak step.1 n
    (rest.1, (if step.2 then 1 else 0) + rest.2)

/-! ## Theorems -/

theorem failStreak_snd_eq_zero_of_ne (n : Nat) :
    ∀ r : Nat, r ≠ 0 → (failStreak r n).2 = 0 := by
  induction n with
  | zero => intro r _; rfl
  | succ n ih =>
    intro r h
    unfold failStreak recaptureFail
    simp only [decide_eq_true_eq]
    rw [if_neg h, ih (r + 1) (by omega)]

/-- C2: an FFT size requested below 128 becomes exactly 128; a size at
least 128 that is not a multiple of 16 is rounded down to the nearest
multiple of 16 (a multiple of 16 is kept); with auto sizing, the
effective size is `floor(samples_per_sec / fps)` rounded down to a
multiple of 16, raised to a minimum of 128. -/
theorem fft_size_effective :
    (∀ n : Nat, n < 128 → normalizeFFTSize n = 128)
    ∧ (∀ n : Nat, 128 ≤ n → n % 16 ≠ 0 → normalizeFFTSize n = n - n % 16)
    ∧ (∀ n : Nat, 128 ≤ n → n % 16 = 0 → normalizeFFTSize n = n)
    ∧ (∀ (sps : Nat) (fps : ℚ),
        autoFFTSize sps fps
          = max 128 (⌊(sps : ℚ) / fps⌋.toNat - ⌊(sps : ℚ) / fps⌋.toNat % 16)) := by
  refine ⟨?_, ?_, ?_, ?_⟩
  · intro n h
    unfold normalizeFFTSize
    rw [if_pos h]
  · intro n h hm
    unfold normalizeFFTSize alignFFT
    rw [if_neg (by omega), if_pos hm]
    omega
  · intro n h hm
    unfold normalizeFFTSize
    rw [if_neg (by omega), if_neg (by omega)]
  · intro sps fps
    unfold autoFFTSize alignFFT
    dsimp only
    split <;> omega

theorem fft_size_effective_witness :
    normalizeFFTSize 100 = 128
    ∧ normalizeFFTSize 1000 = 1000 - 1000 % 16
    ∧ normalizeFFTSize 2048 = 2048
    ∧ autoFFTSize 44100 60
        = max 128 (⌊(44100 : ℚ) / 60⌋.toNat - ⌊(44100 : ℚ) / 60⌋.toNat % 16) :=
  ⟨fft_size_effective.1 100 (by decide),
   fft_size_effective.2.1 1000 (by decide) (by decide),
   fft_size_effective.2.2.1 2048 (by decide) (by decide),
   fft_size_effective.2.2.2 44100 60⟩

/-- C4: a configured cutoff pair with `high - low < 1` is replaced by
exactly low = 120 Hz, high = 17500 Hz; every other pair is kept
unchanged. -/
theorem cutoff_defaults :
    (∀ low high : ℤ, high - low < 1 → normalizeCutoffs low high = (120, 17500))
    ∧ (∀ low high : ℤ, ¬high - low < 1 → normalizeCutoffs low high = (low, high)) := by
  constructor
  · intro low high h
    unfold normalizeCutoffs
    rw [if_pos h]
  · intro low high h
    unfold normalizeCutoffs
    rw [if_neg h]

theorem cutoff_defaults_witness :
    normalizeCutoffs 200 100 = (120, 17500) ∧ normalizeCutoffs 30 17500 = (30, 17500) :=
  ⟨cutoff_defaults.1 200 100 (by decide), cutoff_defaults.2 30 17500 (by decide)⟩

/-- C8: a configured floor/ceiling pair with `ceiling - floor < 1` is
silently replaced by floor = -120 dB, ceiling = 0 dB (the function is
total, no failure is surfaced); non-degenerate pairs are kept. -/
theorem floor_ceiling_defaults :
    (∀ floorDb ceilingDb : ℤ, ceilingDb - floorDb < 1 →
      normalizeRange floorDb ceilingDb = (-120, 0))
    ∧ (∀ floorDb ceilingDb : ℤ, ¬ceilingDb - floorDb < 1 →
      normalizeRange floorDb ceilingDb = (floorDb, ceilingDb)) := by
  constructor
  · intro floorDb ceilingDb h
    unfold normalizeRange
    rw [if_pos h]
  · intro floorDb ceilingDb h
    unfold normalizeRange
    rw [if_neg h]

theorem floor_ceiling_defaults_witness :
    normalizeRange 0 0 = (-120, 0) ∧ normalizeRange (-65) 0 = (-65, 0) :=
  ⟨floor_ceiling_defaults.1 0 0 (by decide), floor_ceiling_defaults.2 (-65) 0 (by decide)⟩

/-- C9: the missing-source warning is logged exactly on the attempt
where the retry counter is 0; later attempts of the streak increment
the counter but never log, so a streak started by `update` (which
resets the counter to 0) logs exactly `min 1 n` warnings over `n`
failed attempts. -/
theorem retry_logs_once :
    ((recaptureFail 0).2 = true)
    ∧ (∀ r : Nat, r ≠ 0 → (recaptureFail r).2 = false)
    ∧ (∀ r : Nat, (recaptureFail r).1 = r + 1)
    ∧ (∀ n : Nat, (failStreak 0 n).2 = min 1 n) := by
  refine ⟨rfl, ?_, fun r => rfl, ?_⟩
  · intro r h
    unfold recaptureFail
    simp [h]
  · intro n
    cases n with
    | zero => rfl
    | succ n =>
      have h0 : (failStreak 1 n).2 = 0 := failStreak_snd_eq_zero_of_ne n 1 (by omega)
      unfold failStreak recaptureFail
      simp [h0]

theorem retry_logs_once_witness :
    (recaptureFail 3).2 = false ∧ (failStreak 0 5).2 = min 1 5 :=
  ⟨retry_logs_once.2.1 3 (by decide), retry_logs_once.2.2.2 5⟩

/-- C10: when the weak audio source handle is null, the capture
callback returns without touching any state: the whole instance state
is unchanged and the frame is discarded. -/
theorem capture_null_source_discards (st : CaptureState) (frames : Nat)
    (data : Fin 2 → List Nat) (muted : Bool) (h : st.audioSource = none) :
    captureAudio st frames data muted = st := by
  unfold captureAudio
  rw [if_pos h]

theorem capture_null_source_discards_witness :
    captureAudio ⟨none, 2, 128, fun _ => []⟩ 4 (fun _ => List.replicate 16 7) false
      = ⟨none, 2, 128, fun _ => []⟩ :=
  capture_null_source_discards _ 4 _ false rfl

/-- C7: both bar-mode averaging loops are do/while loops, so they
execute at least one iteration for every pair of start/stop indices
(the point-mode loop over truncated integer indices and the
Lanczos-mode loop over fractional indices alike); the sample-count
divisor of the average is therefore always at least 1. -/
theorem bar_average_count_pos :
    (∀ (dec : ℤ → ℝ) (pos stop : ℤ), 1 ≤ (barSumCountPoint dec pos stop).2)
    ∧ (∀ (f : ℚ → ℝ) (pos stop : ℚ), 1 ≤ (barSumCountLanczos f pos stop).2) := by
  constructor
  · intro dec pos stop
    unfold barSumCountPoint
    split <;> simp
  · intro f pos stop
    unfold barSumCountLanczos
    split <;> simp

/-- C1: `capture_audio` appends exactly `frames * 4` bytes to a
channel's FIFO (zero bytes when muted, the delivered sample bytes
otherwise), then trims from the front so that the resulting size never
exceeds twice the analysis window size in bytes; the result is a
suffix of old-contents ++ new-bytes, so the newest bytes are never the
ones discarded. -/
theorem capture_push_bounded (fftSize frames : Nat) (buf data : List Nat)
    (muted : Bool) (hdata : data.length = frames * 4) :
    (pushedBytes frames data muted).length = frames * 4
    ∧ capturePushChannel fftSize buf frames data muted
        = (buf ++ pushedBytes frames data muted).drop
            (buf.length + frames * 4 - fftSize * 4 * 2)
    ∧ (capturePushChannel fftSize buf frames data muted).length
        = min (buf.length + frames * 4) (fftSize * 4 * 2)
    ∧ (capturePushChannel fftSize buf frames data muted).length ≤ 2 * (fftSize * 4)
    ∧ (capturePushChannel fftSize buf frames data muted)
        <:+ buf ++ pushedBytes frames data muted := by
  have happ : (pushedBytes frames data muted).length = frames * 4 := by
    unfold pushedBytes
    cases muted <;> simp [hdata]
  have hb1 : (if muted then circlebufPushBackZero buf (frames * 4)
      else circlebufPushBack buf data) = buf ++ pushedBytes frames data muted := by
    unfold pushedBytes circlebufPushBackZero circlebufPushBack
    cases muted <;> simp
  have hlen1 : (buf ++ pushedBytes frames data muted).length = buf.length + frames * 4 := by
    rw [List.length_append, happ]
  have hres : capturePushChannel fftSize buf frames data muted
      = (buf ++ pushedBytes frames data muted).drop
          (buf.length + frames * 4 - fftSize * 4 * 2) := by
    unfold capturePushChannel circlebufPopFront
    dsimp only
    rw [hb1, hlen1]
    split
    · rfl
    · rw [Nat.sub_eq_zero_of_le (by omega), List.drop_zero]
  have hlen : (capturePushChannel fftSize buf frames data muted).length
      = min (buf.length + frames * 4) (fftSize * 4 * 2) := by
    rw [hres, List.length_drop, hlen1]
    omega
  refine ⟨happ, hres, hlen, by omega, ?_⟩
  rw [hres]
  exact List.drop_suffix _ _

theorem capture_push_bounded_witness :
    (pushedBytes 1 [9, 9, 9, 9] false).length = 1 * 4
    ∧ capturePushChannel 1 [1, 2, 3, 4, 5, 6, 7, 8] 1 [9, 9, 9, 9] false
        = ([1, 2, 3, 4, 5, 6, 7, 8] ++ pushedBytes 1 [9, 9, 9, 9] false).drop
            ([1, 2, 3, 4, 5, 6, 7, 8].length + 1 * 4 - 1 * 4 * 2)
    ∧ (capturePushChannel 1 [1, 2, 3, 4, 5, 6, 7, 8] 1 [9, 9, 9, 9] false).length
        = min ([1, 2, 3, 4, 5, 6, 7, 8].length + 1 * 4) (1 * 4 * 2)
    ∧ (capturePushChannel 1 [1, 2, 3, 4, 5, 6, 7, 8] 1 [9, 9, 9, 9] false).length
        ≤ 2 * (1 * 4)
    ∧ capturePushChannel 1 [1, 2, 3, 4, 5, 6, 7, 8] 1 [9, 9, 9, 9] false
        <:+ [1, 2, 3, 4, 5, 6, 7, 8] ++ pushedBytes 1 [9, 9, 9, 9] false :=
  capture_push_bounded 1 1 [1, 2, 3, 4, 5, 6, 7, 8] [9, 9, 9, 9] false (by decide)

theorem getElem!_replicate {α : Type} [Inhabited α] {n i : Nat} (a : α) (h : i < n) :
    (List.replicate n a)[i]! = a := by
  rw [getElem!_pos (List.replicate n a) i (by simpa using h)]
  simp

/-- C5: right after `update`, every bin of every output channel's
decibel spectrum equals `DB_MIN = 20 * log10(2^-126)`, and `DB_MIN` is
a finite negative real (strictly between -2520 and 0), never minus
infinity. -/
theorem spectrum_initialized_to_db_min :
    (∀ outputChannels fftSize i j : Nat, i < outputChannels → j < fftSize / 2 →
      ((initSpectrum outputChannels fftSize)[i]!)[j]! = DB_MIN)
    ∧ (-2520 < DB_MIN ∧ DB_MIN < 0) := by
  constructor
  · intro ch N i j hi hj
    unfold initSpectrum initDecibels
    rw [getElem!_replicate _ hi, getElem!_replicate _ hj]
  · have e1 : DB_MIN = -2520 * Real.logb 10 2 := by
      unfold DB_MIN
      rw [zpow_neg, Real.logb_inv]
      rw [show ((2 : ℝ) ^ (126 : ℤ)) = (2 : ℝ) ^ (126 : ℕ) from by norm_num]
      rw [Real.logb_pow]
      ring
    have hL0 : 0 < Real.logb 10 2 := Real.logb_pos (by norm_num) (by norm_num)
    have hL1 : Real.logb 10 2 < 1 := by
      have h2 := Real.logb_lt_logb (b := 10) (by norm_num)
        (by norm_num : (0 : ℝ) < 2) (by norm_num : (2 : ℝ) < 10)
      rwa [Real.logb_self_eq_one (by norm_num)] at h2
    exact ⟨by rw [e1]; nlinarith, by rw [e1]; nlinarith⟩

theorem spectrum_initialized_to_db_min_witness :
    ((initSpectrum 2 2048)[1]!)[5]! = DB_MIN :=
  spectrum_initialized_to_db_min.1 2 2048 1 5 (by decide) (by decide)

theorem init_interp_length (logScale : Bool) (cl ch : ℤ) (N : Nat) (sr : ℝ) (sz : Nat) :
    (init_interp logScale cl ch N sr sz).length = sz := by
  unfold init_interp
  rw [List.length_map, List.length_range]

/-- C6: in bar mode the number of bars is `width / (barWidth + barGap)`
(integer division), plus one more when the remaining width still fits
a full bar; the interpolation index table is then built with
`numBars + 1` entries (one sentinel extra). -/
theorem num_bars_and_table :
    ∀ width barWidth barGap : Nat, 1 ≤ barWidth →
      (numBars width barWidth barGap
        = width / (barWidth + barGap)
          + (if barWidth ≤ width % (barWidth + barGap) then 1 else 0))
      ∧ ∀ (logScale : Bool) (cl ch : ℤ) (N : Nat) (sr : ℝ),
          (init_interp logScale cl ch N sr (numBars width barWidth barGap + 1)).length
            = numBars width barWidth barGap + 1 := by
  intro W B G hB
  constructor
  · unfold numBars
    dsimp only
    have key : (B + G) * (W / (B + G)) + W % (B + G) = W := Nat.div_add_mod W (B + G)
    have key2 : (((B + G) : ℕ) : ℤ) * ((W / (B + G) : ℕ) : ℤ)
        + ((W % (B + G) : ℕ) : ℤ) = (W : ℤ) := by exact_mod_cast key
    have hsub : (W : ℤ) - ((W / (B + G) : ℕ) : ℤ) * (((B + G) : ℕ) : ℤ)
        = ((W % (B + G) : ℕ) : ℤ) := by linarith
    have hcond : ((W : ℤ) - ((W / (B + G) : ℕ) : ℤ) * (((B + G) : ℕ) : ℤ) ≥ (B : ℤ))
        ↔ (B ≤ W % (B + G)) := by
      rw [ge_iff_le, hsub]
      exact_mod_cast Iff.rfl
    rw [if_congr hcond rfl rfl]
    split_ifs <;> omega
  · intro logScale cl ch N sr
    exact init_interp_length logScale cl ch N sr _

theorem num_bars_and_table_witness :
    numBars 800 24 6 = 800 / (24 + 6) + (if 24 ≤ 800 % (24 + 6) then 1 else 0)
    ∧ (init_interp true 30 17500 2048 44100 (numBars 800 24 6 + 1)).length
        = numBars 800 24 6 + 1 :=
  ⟨(num_bars_and_table 800 24 6 (by decide)).1,
   (num_bars_and_table 800 24 6 (by decide)).2 true 30 17500 2048 44100⟩

theorem clampF_le_hi {v lo hi : ℝ} (h : lo ≤ hi) : clampF v lo hi ≤ hi := by
  unfold clampF
  split_ifs <;> linarith

theorem lo_le_clampF {v lo hi : ℝ} (h : lo ≤ hi) : lo ≤ clampF v lo hi := by
  unfold clampF
  split_ifs <;> linarith

theorem clampF_mono {v w lo hi : ℝ} (h : lo ≤ hi) (hvw : v ≤ w) :
    clampF v lo hi ≤ clampF w lo hi := by
  unfold clampF
  split_ifs <;> linarith

theorem lerp_zero_eq (a b : ℝ) : lerp a b 0 = a := by
  unfold lerp
  ring

theorem lerp_one_eq (a b : ℝ) : lerp a b 1 = b := by
  unfold lerp
  ring

theorem lerp_mono {a b t s : ℝ} (hab : a ≤ b) (hts : t ≤ s) :
    lerp a b t ≤ lerp a b s := by
  unfold lerp
  nlinarith

theorem le_lerp {a b t : ℝ} (hab : a ≤ b) (ht : 0 ≤ t) : a ≤ lerp a b t := by
  unfold lerp
  nlinarith

theorem lerp_le {a b t : ℝ} (hab : a ≤ b) (ht : t ≤ 1) : lerp a b t ≤ b := by
  unfold lerp
  nlinarith

theorem log_interp_zero_eq {a : ℝ} (b : ℝ) (ha : 0 < a) : log_interp a b 0 = a := by
  unfold log_interp
  rw [lerp_zero_eq, Real.exp_log ha]

theorem log_interp_one_eq (a : ℝ) {b : ℝ} (hb : 0 < b) : log_interp a b 1 = b := by
  unfold log_interp
  rw [lerp_one_eq, Real.exp_log hb]

theorem log_interp_mono {a b t s : ℝ} (ha : 0 < a) (hab : a ≤ b) (hts : t ≤ s) :
    log_interp a b t ≤ log_interp a b s := by
  unfold log_interp
  exact Real.exp_le_exp.mpr (lerp_mono (Real.log_le_log ha hab) hts)

theorem le_log_interp {a b t : ℝ} (ha : 0 < a) (hab : a ≤ b) (ht : 0 ≤ t) :
    a ≤ log_interp a b t := by
  unfold log_interp
  calc a = Real.exp (Real.log a) := (Real.exp_log ha).symm
    _ ≤ _ := Real.exp_le_exp.mpr (le_lerp (Real.log_le_log ha hab) ht)

theorem log_interp_le {a b t : ℝ} (ha : 0 < a) (hab : a ≤ b) (ht : t ≤ 1) :
    log_interp a b t ≤ b := by
  unfold log_interp
  calc Real.exp (lerp (Real.log a) (Real.log b) t)
      ≤ Real.exp (Real.log b) := Real.exp_le_exp.mpr (lerp_le (Real.log_le_log ha hab) ht)
    _ = b := Real.exp_log (lt_of_lt_of_le ha hab)

theorem normalizeCutoffs_fst_lt_snd (low high : ℤ) :
    (normalizeCutoffs low high).1 < (normalizeCutoffs low high).2 := by
  unfold normalizeCutoffs
  split
  · norm_num
  · dsimp only
    omega

theorem init_interp_getElem! (logScale : Bool) (cl ch : ℤ) (N : Nat) (sr : ℝ)
    {sz i : Nat} (hi : i < sz) :
    (init_interp logScale cl ch N sr sz)[i]!
      = if logScale then
          log_interp (binOf cl N sr) (binOf ch N sr) ((i : ℝ) / ((sz - 1 : Nat) : ℝ))
        else lerp (binOf cl N sr) (binOf ch N sr) ((i : ℝ) / ((sz - 1 : Nat) : ℝ)) := by
  rw [getElem!_pos _ i (by rw [init_interp_length]; exact hi)]
  unfold init_interp
  dsimp only
  rw [List.getElem_map]
  rw [List.getElem_range]

/-- C3: for every configuration reaching `init_interp` (any raw cutoff
pair fed through the settings normalization, any positive sample rate,
any FFT size of at least 128, log or linear mode, any column count of
at least 2), every table entry lies within `[1, N/2 - 1]`, the entries
are non-decreasing in column index, and the two endpoints equal
`clamp(cutoff * N / sampleRate, 1, N/2 - 1)` for the low and high
cutoff respectively. -/
theorem interp_table_in_range (logScale : Bool) (rawLow rawHigh : ℤ)
    (fftSize sz : Nat) (sr : ℝ)
    (hN : 128 ≤ fftSize) (hsr : 0 < sr) (hsz : 2 ≤ sz) :
    (∀ x ∈ init_interp logScale (normalizeCutoffs rawLow rawHigh).1
        (normalizeCutoffs rawLow rawHigh).2 fftSize sr sz,
      1 ≤ x ∧ x ≤ maxbinF fftSize)
    ∧ (∀ i j : Nat, i ≤ j → j < sz →
        (init_interp logScale (normalizeCutoffs rawLow rawHigh).1
            (normalizeCutoffs rawLow rawHigh).2 fftSize sr sz)[i]!
          ≤ (init_interp logScale (normalizeCutoffs rawLow rawHigh).1
              (normalizeCutoffs rawLow rawHigh).2 fftSize sr sz)[j]!)
    ∧ (init_interp logScale (normalizeCutoffs rawLow rawHigh).1
        (normalizeCutoffs rawLow rawHigh).2 fftSize sr sz)[0]!
        = clampF (((normalizeCutoffs rawLow rawHigh).1 : ℝ) * (fftSize : ℝ) / sr) 1
            (maxbinF fftSize)
    ∧ (init_interp logScale (normalizeCutoffs rawLow rawHigh).1
        (normalizeCutoffs rawLow rawHigh).2 fftSize sr sz)[sz - 1]!
        = clampF (((normalizeCutoffs rawLow rawHigh).2 : ℝ) * (fftSize : ℝ) / sr) 1
            (maxbinF fftSize) := by
  set low := (normalizeCutoffs rawLow rawHigh).1 with hlowdef
  set high := (normalizeCutoffs rawLow rawHigh).2 with hhighdef
  set T := init_interp logScale low high fftSize sr sz with hTdef
  have hlh : low < high := by
    rw [hlowdef, hhighdef]
    exact normalizeCutoffs_fst_lt_snd rawLow rawHigh
  have hmb : (1 : ℝ) ≤ maxbinF fftSize := by
    have h63 : 1 ≤ fftSize / 2 - 1 := by omega
    unfold maxbinF
    exact_mod_cast h63
  have hvv : (low : ℝ) * (fftSize : ℝ) / sr ≤ (high : ℝ) * (fftSize : ℝ) / sr := by
    have hlhR : (low : ℝ) ≤ (high : ℝ) := by exact_mod_cast le_of_lt hlh
    have hnum : (low : ℝ) * (fftSize : ℝ) ≤ (high : ℝ) * (fftSize : ℝ) :=
      mul_le_mul_of_nonneg_right hlhR (Nat.cast_nonneg _)
    exact div_le_div_of_nonneg_right hnum (le_of_lt hsr)
  have h1low : (1 : ℝ) ≤ binOf low fftSize sr := lo_le_clampF hmb
  have h1high : (1 : ℝ) ≤ binOf high fftSize sr := lo_le_clampF hmb
  have hlowmax : binOf low fftSize sr ≤ maxbinF fftSize := clampF_le_hi hmb
  have hhighmax : binOf high fftSize sr ≤ maxbinF fftSize := clampF_le_hi hmb
  have hlowhigh : binOf low fftSize sr ≤ binOf high fftSize sr := clampF_mono hmb hvv
  have hlow0 : (0 : ℝ) < binOf low fftSize sr := lt_of_lt_of_le one_pos h1low
  have hhigh0 : (0 : ℝ) < binOf high fftSize sr := lt_of_lt_of_le one_pos h1high
  have hd : (0 : ℝ) < ((sz - 1 : Nat) : ℝ) := by exact_mod_cast (by omega : 0 < sz - 1)
  refine ⟨?_, ?_, ?_, ?_⟩
  · intro x hx
    rw [hTdef] at hx
    unfold init_interp at hx
    dsimp only at hx
    rw [List.mem_map] at hx
    obtain ⟨i, hi, rfl⟩ := hx
    rw [List.mem_range] at hi
    have ht0 : (0 : ℝ) ≤ (i : ℝ) / ((sz - 1 : Nat) : ℝ) :=
      div_nonneg (Nat.cast_nonneg _) (Nat.cast_nonneg _)
    have ht1 : (i : ℝ) / ((sz - 1 : Nat) : ℝ) ≤ 1 := by
      rw [div_le_one hd]
      exact_mod_cast (by omega : i ≤ sz - 1)
    cases logScale
    · simp only [Bool.false_eq_true, if_false]
      exact ⟨le_trans h1low (le_lerp hlowhigh ht0),
        le_trans (lerp_le hlowhigh ht1) hhighmax⟩
    · simp only [if_true]
      exact ⟨le_trans h1low (le_log_interp hlow0 hlowhigh ht0),
        le_trans (log_interp_le hlow0 hlowhigh ht1) hhighmax⟩
  · intro i j hij hj
    rw [hTdef]
    rw [init_interp_getElem! logScale low high fftSize sr (lt_of_le_of_lt hij hj),
      init_interp_getElem! logScale low high fftSize sr hj]
    have htm : (i : ℝ) / ((sz - 1 : Nat) : ℝ) ≤ (j : ℝ) / ((sz - 1 : Nat) : ℝ) :=
      div_le_div_of_nonneg_right (by exact_mod_cast hij) (le_of_lt hd)
    cases logScale
    · simp only [Bool.false_eq_true, if_false]
      exact lerp_mono hlowhigh htm
    · simp only [if_true]
      exact log_interp_mono hlow0 hlowhigh htm
  · rw [hTdef]
    rw [init_interp_getElem! logScale low high fftSize sr (by omega : 0 < sz)]
    have ht : ((0 : Nat) : ℝ) / ((sz - 1 : Nat) : ℝ) = 0 := by simp
    cases logScale
    · simp only [Bool.false_eq_true, if_false]
      rw [ht, lerp_zero_eq]
      rfl
    · simp only [if_true]
      rw [ht, log_interp_zero_eq _ hlow0]
      rfl
  · rw [hTdef]
    rw [init_interp_getElem! logScale low high fftSize sr (by omega : sz - 1 < sz)]
    have ht : ((sz - 1 : Nat) : ℝ) / ((sz - 1 : Nat) : ℝ) = 1 := div_self (ne_of_gt hd)
    cases logScale
    · simp only [Bool.false_eq_true, if_false]
      rw [ht, lerp_one_eq]
      rfl
    · simp only [if_true]
      rw [ht, log_interp_one_eq _ hhigh0]
      rfl

theorem interp_table_in_range_witness :
    (init_interp true (normalizeCutoffs 30 17500).1 (normalizeCutoffs 30 17500).2
        2048 44100 800)[0]!
      = clampF (((normalizeCutoffs 30 17500).1 : ℝ) * ((2048 : Nat) : ℝ) / 44100) 1
          (maxbinF 2048) :=
  (interp_table_in_range true 30 17500 2048 800 44100
    (by norm_num) (by norm_num) (by norm_num)).2.2.1

end ObsWaveform
